import Mathlib

/-!
Verification of the Freestyle `Canvas` stroke-rendering controller
(`source/blender/freestyle/intern/stroke/Canvas.h`).

Only the header is available: inline members (`ltstr`, `isEmpty`,
`getStrokeCount`, `loadSteerableViewMap`, `getSteerableViewMap`,
`AddLayer`, `getInstance` accessors) are embedded directly from the
source; the out-of-line member bodies (`Draw`, `Render`, `Clear`,
`Erase`, the module-chain operations, `loadMap`, `readMapPixel`) are
modelled from the specification, as marked on each definition.

Modelling conventions: a C++ pointer is a natural number (an address);
a C string is an address paired with its character content; `float`
scalars are rationals; a fallible operation returns its new state
together with a Boolean "error was reported" flag, the state component
being the unchanged input when the flag is set.
-/

namespace Freestyle

/-- Identifier of a stroke, standing for a `Stroke *`. -/
abbrev Stroke := Nat

/-- Embedded from the source: a `StrokeLayer` is the ordered collection of
strokes produced by one style-module execution. -/
abbrev StrokeLayer := List Stroke

/-- Embedded from the source interface of `StyleModule`: a style module has
a dirty ("modified") flag and a visibility flag. Its execution capability
is modelled by the data field `execOut`: `some layer` when executing the
module against the current canvas succeeds and produces `layer`,
`none` when execution fails and no layer is produced. -/
structure StyleModule where
  sid : Nat
  modified : Bool
  visible : Bool
  execOut : Option StrokeLayer
deriving DecidableEq, Repr

/-- A C string: an address (pointer identity) paired with the character
content the pointer refers to. -/
structure CStr where
  addr : Nat
  content : String
deriving DecidableEq, Repr

/-- Embedded from the source (`struct ltstr`): the comparator of the map
registry orders two C-string keys by `strcmp(s1, s2) < 0`, i.e. by the
lexicographic order of their character content, ignoring the addresses. -/
def ltstr (s1 s2 : CStr) : Bool :=
  s1.content < s2.content

/-- A grayscale raster: dimensions and a scalar value at each pixel. -/
structure GrayImage where
  w : Nat
  h : Nat
  pix : Nat → Nat → ℚ

/-- Embedded from the spec of ImagePyramid queries: a pixel access clamps
the requested coordinates to the raster's bounds. -/
def GrayImage.get (img : GrayImage) (x y : Nat) : ℚ :=
  img.pix (min x (img.w - 1)) (min y (img.h - 1))

/-- All pixel values of the raster lie in the interval [0, 1]. -/
def GrayImage.InRange01 (img : GrayImage) : Prop :=
  ∀ x y : Nat, 0 ≤ img.pix x y ∧ img.pix x y ≤ 1

/-- Modelled from the spec (ImagePyramid build step, `Canvas.cpp` bodies
missing): each level is derived from the previous one by Gaussian-smooth
then halve; the smoothing kernel is normalized, so the step is modelled
as a 2x2 box average at half resolution. -/
def GrayImage.downsample (img : GrayImage) : GrayImage where
  w := img.w / 2
  h := img.h / 2
  pix := fun x y =>
    (img.get (2 * x) (2 * y) + img.get (2 * x + 1) (2 * y) +
     img.get (2 * x) (2 * y + 1) + img.get (2 * x + 1) (2 * y + 1)) / 4

/-- Modelled from the spec: an ImagePyramid is the list of its levels,
level 0 (the source image) first, each next level at half resolution. -/
structure ImagePyramid where
  levels : List GrayImage

/-- Modelled from the spec: build `n` successively halved levels starting
from `img`. -/
def buildLevels : Nat → GrayImage → List GrayImage
  | 0, _ => []
  | n + 1, img => img :: buildLevels n img.downsample

/-- Modelled from the spec: with a requested level count of 0 the pyramid
is built until a dimension would fall below 1, i.e. floor(log2) of the
smaller dimension further halvings are possible. -/
def autoLevels (w h : Nat) : Nat :=
  Nat.log2 (min w h) + 1

/-- Modelled from the spec (`loadMap` build step): build the pyramid with
the requested number of levels, the complete pyramid when `iNbLevels = 0`.
The Gaussian `sigma` parametrizes the smoothing kernel, which the box
average model keeps normalized for every sigma, so it does not appear. -/
def ImagePyramid.build (img : GrayImage) (iNbLevels : Nat) : ImagePyramid where
  levels :=
    if iNbLevels = 0 then buildLevels (autoLevels img.w img.h) img
    else buildLevels iNbLevels img

/-- Lookup in the map registry: the `std::map` keyed through `ltstr`
compares keys by character content only. -/
def mapsFind (m : List (String × ImagePyramid)) (key : String) : Option ImagePyramid :=
  match m with
  | [] => none
  | (k, v) :: rest => if k = key then some v else mapsFind rest key

/-- Insertion in the map registry: a pyramid registered under an already
present key content replaces (and releases) the previous entry. -/
def mapsInsert (m : List (String × ImagePyramid)) (key : String) (v : ImagePyramid) :
    List (String × ImagePyramid) :=
  match m with
  | [] => [(key, v)]
  | (k, w) :: rest =>
    if k = key then (key, v) :: rest else (k, w) :: mapsInsert rest key v

/-- Key contents present in the map registry, in registry order. -/
def mapsKeys (m : List (String × ImagePyramid)) : List String :=
  m.map (fun kv => kv.1)

/-- Embedded from the source data members of `Canvas` (`Canvas.h`):
the layer deque `_Layers` (front = oldest), the module deque
`_StyleModules`, the selected edge `_SelectedFEdge`, the current module
`_current_sm`, the registry `_maps`, the steerable view map pointer
`_steerableViewMap`, the basic-mode flag `_basic` and `stroke_count`. -/
structure Canvas where
  layers : List StrokeLayer
  styleModules : List StyleModule
  selectedFEdge : Nat
  current_sm : Option Nat
  maps : List (String × ImagePyramid)
  steerableViewMap : Nat
  basic : Bool
  stroke_count : Nat

/-- Embedded from the source (inline): `isEmpty` returns `_Layers.empty()`. -/
def Canvas.isEmpty (c : Canvas) : Bool :=
  c.layers.isEmpty

/-- Embedded from the source (inline): `getStrokeCount` returns
`stroke_count`. -/
def Canvas.getStrokeCount (c : Canvas) : Nat :=
  c.stroke_count

/-- Embedded from the source (inline): `loadSteerableViewMap` assigns
`_steerableViewMap = iSVM;` and nothing else. -/
def Canvas.loadSteerableViewMap (c : Canvas) (iSVM : Nat) : Canvas :=
  { c with steerableViewMap := iSVM }

/-- Embedded from the source (inline): `getSteerableViewMap` returns
`_steerableViewMap`. -/
def Canvas.getSteerableViewMap (c : Canvas) : Nat :=
  c.steerableViewMap

/-- Embedded from the source (inline): `AddLayer` pushes the layer at the
back of `_Layers`. -/
def Canvas.AddLayer (c : Canvas) (iLayer : StrokeLayer) : Canvas :=
  { c with layers := c.layers ++ [iLayer] }

/-- Modelled from the spec (`PushBackStyleModule` body missing): append the
module at the back of the chain. -/
def Canvas.PushBackStyleModule (c : Canvas) (m : StyleModule) : Canvas :=
  { c with styleModules := c.styleModules ++ [m] }

/-- Modelled from the spec (`RemoveStyleModule` body missing): remove the
module at a valid index; an out-of-bounds index is a reported error with
no mutation. -/
def Canvas.RemoveStyleModule (c : Canvas) (index : Nat) : Canvas × Bool :=
  if index < c.styleModules.length then
    ({ c with styleModules := c.styleModules.eraseIdx index }, false)
  else (c, true)

/-- Modelled from the spec (`InsertStyleModule` body missing; header
comment says the shader is inserted at position index + 1): insert
directly after a valid index; out-of-bounds reports and does not mutate. -/
def Canvas.InsertStyleModule (c : Canvas) (index : Nat) (m : StyleModule) : Canvas × Bool :=
  if index < c.styleModules.length then
    ({ c with styleModules := c.styleModules.insertIdx (index + 1) m }, false)
  else (c, true)

/-- Modelled from the spec (`SwapStyleModules` body missing): swap the
modules at two valid indices, preserving each module (dirty flag
included); out-of-bounds reports and does not mutate. -/
def Canvas.SwapStyleModules (c : Canvas) (i1 i2 : Nat) : Canvas × Bool :=
  match c.styleModules[i1]?, c.styleModules[i2]? with
  | some m1, some m2 =>
    ({ c with styleModules := (c.styleModules.set i1 m2).set i2 m1 }, false)
  | some _, none => (c, true)
  | none, _ => (c, true)

/-- Modelled from the spec (`ReplaceStyleModule` body missing): replace in
place at a valid index; out-of-bounds reports and does not mutate. -/
def Canvas.ReplaceStyleModule (c : Canvas) (index : Nat) (m : StyleModule) : Canvas × Bool :=
  if index < c.styleModules.length then
    ({ c with styleModules := c.styleModules.set index m }, false)
  else (c, true)

/-- Modelled from the spec (`setVisible` body missing): set the visibility
flag of the module at a valid index; out-of-bounds reports and does not
mutate. -/
def Canvas.setVisible (c : Canvas) (index : Nat) (iVisible : Bool) : Canvas × Bool :=
  match c.styleModules[index]? with
  | some m =>
    ({ c with styleModules := c.styleModules.set index { m with visible := iVisible } }, false)
  | none => (c, true)

/-- Modelled from the spec (`setModified` body missing): set the dirty flag
of the module at a valid index; out-of-bounds reports and does not
mutate. -/
def Canvas.setModified (c : Canvas) (index : Nat) (iMod : Bool) : Canvas × Bool :=
  match c.styleModules[index]? with
  | some m =>
    ({ c with styleModules := c.styleModules.set index { m with modified := iMod } }, false)
  | none => (c, true)

/-- Modelled from the spec (`resetModified` body missing): set every
module's dirty flag to the given value. -/
def Canvas.resetModified (c : Canvas) (iMod : Bool) : Canvas :=
  { c with styleModules := c.styleModules.map (fun m => { m with modified := iMod }) }

/-- Dirty flag of the module at index `i`, `false` past the end. -/
def modDirtyAt (mods : List StyleModule) (i : Nat) : Bool :=
  match mods[i]? with
  | some m => m.modified
  | none => false

/-- Modelled from the spec (`causalStyleModules` body missing): append to
`vec` the indices of the modules at position at least `index` whose dirty
flag is set, in ascending order. -/
def Canvas.causalStyleModules (c : Canvas) (vec : List Nat) (index : Nat) : List Nat :=
  vec ++ (List.range c.styleModules.length).filter
    (fun i => decide (index ≤ i) && modDirtyAt c.styleModules i)

/-- Modelled from the spec (`Erase` body missing): remove and release all
stroke layers and reset the stroke counter; modules and maps untouched. -/
def Canvas.Erase (c : Canvas) : Canvas :=
  { c with layers := [], stroke_count := 0 }

/-- Modelled from the spec (`Clear` body missing): superset of `Erase`;
additionally reset every module's dirty flag to false and drop the
current-module reference; maps and the steerable view map survive. -/
def Canvas.Clear (c : Canvas) : Canvas :=
  { c.Erase with
    styleModules := c.styleModules.map (fun m => { m with modified := false }),
    current_sm := none }

/-- Modelled from the spec (`Draw` loop step, body missing): a visible
module is executed; on success its dirty flag is cleared and its layer is
produced; on failure no layer is produced and the module is left as it
was; an invisible module is skipped entirely. -/
def drawStep (m : StyleModule) : StyleModule × Option StrokeLayer :=
  if m.visible then
    match m.execOut with
    | some layer => ({ m with modified := false }, some layer)
    | none => (m, none)
  else (m, none)

/-- Modelled from the spec: the `Draw` loop over the module chain in
causal (sequence) order, returning the updated modules and the produced
layers in chain order. -/
def drawModules : List StyleModule → List StyleModule × List StrokeLayer
  | [] => ([], [])
  | m :: rest =>
    let s := drawStep m
    let r := drawModules rest
    (s.1 :: r.1, match s.2 with | some layer => layer :: r.2 | none => r.2)

/-- Modelled from the spec (`Render` body missing): visit every stroke
layer oldest first and invoke `RenderStroke` on each stroke; the value is
the trace of strokes passed to `RenderStroke`, in call order. -/
def renderLayers : List StrokeLayer → List Stroke
  | [] => []
  | layer :: rest => layer ++ renderLayers rest

/-- Modelled from the spec (`RenderBasic` body missing): the
reduced-fidelity path differs only inside the backend `RenderStroke`; the
layer-then-stroke visiting order is the same trace. -/
def renderLayersBasic : List StrokeLayer → List Stroke
  | [] => []
  | layer :: rest => layer ++ renderLayersBasic rest

/-- Modelled from the spec: `Render` composites the layer stack through
the renderer, oldest layer first. -/
def Canvas.Render (c : Canvas) : List Stroke :=
  renderLayers c.layers

/-- Modelled from the spec: `RenderBasic` composites the layer stack in
the same order through the cheaper stroke path. -/
def Canvas.RenderBasic (c : Canvas) : List Stroke :=
  renderLayersBasic c.layers

/-- Modelled from the spec: `preDraw` resets per-frame transient state
(the stroke counter among it) and does not touch the module or layer
collections. -/
def Canvas.preDraw (c : Canvas) : Canvas :=
  { c with stroke_count := 0 }

/-- Modelled from the spec: `postDraw` is backend teardown; it does not
touch the collections. -/
def Canvas.postDraw (c : Canvas) : Canvas :=
  c

/-- Modelled from the spec (`Draw` body missing): preDraw, then execute
the visible modules in causal order appending each produced layer, then
Render or RenderBasic depending on the basic-mode flag, then postDraw.
The second component is the trace of strokes passed to `RenderStroke`. -/
def Canvas.Draw (c : Canvas) : Canvas × List Stroke :=
  let c0 := c.preDraw
  let r := drawModules c0.styleModules
  let c1 := { c0 with styleModules := r.1, layers := c0.layers ++ r.2 }
  let trace := if c1.basic then c1.RenderBasic else c1.Render
  (({ c1 with stroke_count := trace.length }).postDraw, trace)

/-- Modelled from the spec (`loadMap` body missing): decode the grayscale
image at the file path through the decoder, build the pyramid with the
requested level count, and register it under the map name's content,
replacing any prior pyramid with the same name; a decode failure is
reported and leaves the registry untouched. -/
def Canvas.loadMap (c : Canvas) (decode : String → Option GrayImage)
    (iFileName : String) (iMapName : CStr) (iNbLevels : Nat) (iSigma : ℚ) :
    Canvas × Bool :=
  match decode iFileName with
  | none => (c, true)
  | some img =>
    ({ c with
        maps := mapsInsert c.maps iMapName.content (ImagePyramid.build img iNbLevels) },
     false)

/-- Modelled from the spec (ImagePyramid query): a query at a pyramid
level checks the level-0 bounds, fails on an out-of-range level, and
otherwise remaps the level-0 coordinates by 2^level, clamped to the
level's bounds by the raster access. `iSigma` being absorbed by the
normalized kernel is recorded at `ImagePyramid.build`. -/
def ImagePyramid.pixel (pyr : ImagePyramid) (level x y : Nat) : Option ℚ :=
  match pyr.levels with
  | [] => none
  | l0 :: _ =>
    if x < l0.w ∧ y < l0.h then
      match pyr.levels[level]? with
      | some img => some (img.get (x / 2 ^ level) (y / 2 ^ level))
      | none => none
    else none

/-- Modelled from the spec (`readMapPixel` body missing): look the pyramid
up by name content; fail when it is not found or the level or the
coordinates are out of range; otherwise return the scalar value, which
lies in [0, 1]. -/
def Canvas.readMapPixel (c : Canvas) (iMapName : CStr) (level x y : Nat) : Option ℚ :=
  match mapsFind c.maps iMapName.content with
  | none => none
  | some pyr => pyr.pixel level x y

/-- A concrete style module used to instantiate universally quantified
statements. -/
def sampleModule : StyleModule :=
  { sid := 0, modified := true, visible := true, execOut := some [7] }

/-- A second concrete style module. -/
def sampleModule2 : StyleModule :=
  { sid := 1, modified := false, visible := true, execOut := some [8, 9] }

/-- A concrete canvas used to instantiate universally quantified
statements. -/
def sampleCanvas : Canvas :=
  { layers := [[7]], styleModules := [sampleModule, sampleModule2],
    selectedFEdge := 0, current_sm := some 0, maps := [],
    steerableViewMap := 3, basic := false, stroke_count := 1 }

theorem modDirtyAt_lt_length {mods : List StyleModule} {i : Nat}
    (h : modDirtyAt mods i = true) : i < mods.length := by
  rcases Nat.lt_or_ge i mods.length with hlt | hge
  · exact hlt
  · simp [modDirtyAt, List.getElem?_eq_none hge] at h

/-- C2: after `Clear()`, `isEmpty()` is true and `getStrokeCount()` is 0,
while `getSteerableViewMap()` still returns the steerable view map held
before the call and every registered map is still retrievable under its
name. -/
theorem C2_clear_resets_but_keeps_maps (c : Canvas) :
    c.Clear.isEmpty = true ∧
    c.Clear.getStrokeCount = 0 ∧
    c.Clear.getSteerableViewMap = c.getSteerableViewMap ∧
    ∀ name : String, mapsFind c.Clear.maps name = mapsFind c.maps name :=
  ⟨rfl, rfl, rfl, fun _ => rfl⟩

/-- C10: `loadSteerableViewMap(s)` followed by `getSteerableViewMap()`
returns `s`, and `loadSteerableViewMap` changes no canvas state other
than the stored steerable-view-map reference. -/
theorem C10_load_steerable_view_map (c : Canvas) (s : Nat) :
    (c.loadSteerableViewMap s).getSteerableViewMap = s ∧
    (c.loadSteerableViewMap s).layers = c.layers ∧
    (c.loadSteerableViewMap s).styleModules = c.styleModules ∧
    (c.loadSteerableViewMap s).selectedFEdge = c.selectedFEdge ∧
    (c.loadSteerableViewMap s).current_sm = c.current_sm ∧
    (c.loadSteerableViewMap s).maps = c.maps ∧
    (c.loadSteerableViewMap s).basic = c.basic ∧
    (c.loadSteerableViewMap s).stroke_count = c.stroke_count :=
  ⟨rfl, rfl, rfl, rfl, rfl, rfl, rfl, rfl⟩

/-- C3: `causalStyleModules(out, index)` appends to `out` exactly the
indices of the modules at position at least `index` whose dirty flag is
set, in ascending order; after `resetModified(true)` it yields every
module index ascending, and after `resetModified(false)` it yields
nothing. -/
theorem C3_causal_style_modules (c : Canvas) (vec : List Nat) (index : Nat) :
    (∃ app : List Nat,
      c.causalStyleModules vec index = vec ++ app ∧
      (∀ i : Nat, i ∈ app ↔ index ≤ i ∧ modDirtyAt c.styleModules i = true) ∧
      app.Pairwise (· < ·)) ∧
    (c.resetModified true).causalStyleModules vec 0 =
      vec ++ List.range c.styleModules.length ∧
    (c.resetModified false).causalStyleModules vec 0 = vec := by
  refine ⟨⟨_, rfl, ?_, ?_⟩, ?_, ?_⟩
  · intro i
    simp only [List.mem_filter, List.mem_range, Bool.and_eq_true, decide_eq_true_eq]
    constructor
    · rintro ⟨_, hle, hd⟩
      exact ⟨hle, hd⟩
    · rintro ⟨hle, hd⟩
      exact ⟨modDirtyAt_lt_length hd, hle, hd⟩
  · exact (List.pairwise_lt_range _).filter _
  · unfold Canvas.causalStyleModules Canvas.resetModified
    simp only [List.length_map]
    congr 1
    apply List.filter_eq_self.mpr
    intro i hi
    rw [List.mem_range] at hi
    have hm : (c.styleModules.map (fun m => { m with modified := true }))[i]? =
        some { c.styleModules.get ⟨i, hi⟩ with modified := true } := by
      rw [List.getElem?_map, List.getElem?_eq_getElem hi]
      rfl
    simp [modDirtyAt, hm]
  · unfold Canvas.causalStyleModules Canvas.resetModified
    simp only [List.length_map]
    have hnil : (List.range c.styleModules.length).filter
        (fun i => decide (0 ≤ i) &&
          modDirtyAt (c.styleModules.map (fun m => { m with modified := false })) i) = [] := by
      apply List.filter_eq_nil_iff.mpr
      intro i _
      cases hg : c.styleModules[i]? with
      | none => simp [modDirtyAt, List.getElem?_map, hg]
      | some m => simp [modDirtyAt, List.getElem?_map, hg]
    rw [hnil, List.append_nil]

/-- C4: every index-based chain operation called with an out-of-bounds
index reports an error and leaves the whole canvas state unchanged. -/
theorem C4_out_of_bounds_no_mutation (c : Canvas) (i j : Nat) (m : StyleModule) (b : Bool)
    (h : c.styleModules.length ≤ i) :
    c.RemoveStyleModule i = (c, true) ∧
    c.InsertStyleModule i m = (c, true) ∧
    c.SwapStyleModules i j = (c, true) ∧
    c.SwapStyleModules j i = (c, true) ∧
    c.ReplaceStyleModule i m = (c, true) ∧
    c.setVisible i b = (c, true) ∧
    c.setModified i b = (c, true) := by
  have hnone : c.styleModules[i]? = none := List.getElem?_eq_none h
  have hnlt : ¬ i < c.styleModules.length := Nat.not_lt.mpr h
  refine ⟨?_, ?_, ?_, ?_, ?_, ?_, ?_⟩
  · simp [Canvas.RemoveStyleModule, hnlt]
  · simp [Canvas.InsertStyleModule, hnlt]
  · simp [Canvas.SwapStyleModules, hnone]
  · cases hg : c.styleModules[j]? <;>
      simp [Canvas.SwapStyleModules, hnone, hg]
  · simp [Canvas.ReplaceStyleModule, hnlt]
  · simp [Canvas.setVisible, hnone]
  · simp [Canvas.setModified, hnone]

/-- Witness for C4 at a concrete canvas and the out-of-bounds index 5. -/
theorem C4_out_of_bounds_no_mutation_witness :
    sampleCanvas.styleModules.length ≤ 5 ∧
    (sampleCanvas.RemoveStyleModule 5 = (sampleCanvas, true) ∧
     sampleCanvas.InsertStyleModule 5 sampleModule = (sampleCanvas, true) ∧
     sampleCanvas.SwapStyleModules 5 0 = (sampleCanvas, true) ∧
     sampleCanvas.SwapStyleModules 0 5 = (sampleCanvas, true) ∧
     sampleCanvas.ReplaceStyleModule 5 sampleModule = (sampleCanvas, true) ∧
     sampleCanvas.setVisible 5 true = (sampleCanvas, true) ∧
     sampleCanvas.setModified 5 true = (sampleCanvas, true)) :=
  ⟨by decide, C4_out_of_bounds_no_mutation sampleCanvas 5 0 sampleModule true (by decide)⟩

/-- C7: swapping the modules at two valid indices twice restores the
whole canvas, chain order and every module's dirty flag included. -/
theorem C7_swap_twice_identity (c : Canvas) (i1 i2 : Nat)
    (h1 : i1 < c.styleModules.length) (h2 : i2 < c.styleModules.length) :
    ((c.SwapStyleModules i1 i2).1.SwapStyleModules i1 i2).1 = c := by
  obtain ⟨lay, mods, fe, cur, mp, svm, bas, sc⟩ := c
  simp only at h1 h2
  have hg1 : mods[i1]? = some mods[i1] := List.getElem?_eq_getElem h1
  have hg2 : mods[i2]? = some mods[i2] := List.getElem?_eq_getElem h2
  have step1 : (Canvas.mk lay mods fe cur mp svm bas sc).SwapStyleModules i1 i2 =
      (Canvas.mk lay ((mods.set i1 mods[i2]).set i2 mods[i1]) fe cur mp svm bas sc, false) := by
    unfold Canvas.SwapStyleModules
    rw [show (Canvas.mk lay mods fe cur mp svm bas sc).styleModules = mods from rfl, hg1, hg2]
  rw [step1]
  by_cases heq : i1 = i2
  · subst heq
    have hq : ((mods.set i1 mods[i1]).set i1 mods[i1])[i1]? = some mods[i1] :=
      List.getElem?_set_eq_of_lt _ (by simpa using h1)
    have step2 : (Canvas.mk lay ((mods.set i1 mods[i1]).set i1 mods[i1]) fe cur mp svm bas
        sc).SwapStyleModules i1 i1 =
        (Canvas.mk lay ((((mods.set i1 mods[i1]).set i1 mods[i1]).set i1 mods[i1]).set i1
          mods[i1]) fe cur mp svm bas sc, false) := by
      unfold Canvas.SwapStyleModules
      rw [show (Canvas.mk lay ((mods.set i1 mods[i1]).set i1 mods[i1]) fe cur mp svm bas
        sc).styleModules = (mods.set i1 mods[i1]).set i1 mods[i1] from rfl, hq]
    rw [step2]
    simp only [Canvas.mk.injEq, and_true, true_and]
    apply List.ext_getElem?
    intro n
    by_cases hn : n = i1
    · subst hn
      rw [List.getElem?_set_eq_of_lt _ (by simpa using h1), List.getElem?_eq_getElem h1]
    · rw [List.getElem?_set_ne (Ne.symm hn), List.getElem?_set_ne (Ne.symm hn),
        List.getElem?_set_ne (Ne.symm hn), List.getElem?_set_ne (Ne.symm hn)]
  · have hq2 : ((mods.set i1 mods[i2]).set i2 mods[i1])[i2]? = some mods[i1] :=
      List.getElem?_set_eq_of_lt _ (by simpa using h2)
    have hq1 : ((mods.set i1 mods[i2]).set i2 mods[i1])[i1]? = some mods[i2] := by
      rw [List.getElem?_set_ne (Ne.symm heq), List.getElem?_set_eq_of_lt _ h1]
    have step2 : (Canvas.mk lay ((mods.set i1 mods[i2]).set i2 mods[i1]) fe cur mp svm bas
        sc).SwapStyleModules i1 i2 =
        (Canvas.mk lay ((((mods.set i1 mods[i2]).set i2 mods[i1]).set i1 mods[i1]).set i2
          mods[i2]) fe cur mp svm bas sc, false) := by
      unfold Canvas.SwapStyleModules
      rw [show (Canvas.mk lay ((mods.set i1 mods[i2]).set i2 mods[i1]) fe cur mp svm bas
        sc).styleModules = (mods.set i1 mods[i2]).set i2 mods[i1] from rfl, hq1, hq2]
    rw [step2]
    simp only [Canvas.mk.injEq, and_true, true_and]
    apply List.ext_getElem?
    intro n
    by_cases hn2 : n = i2
    · subst hn2
      rw [List.getElem?_set_eq_of_lt _ (by simpa using h2), List.getElem?_eq_getElem h2]
    · rw [List.getElem?_set_ne (Ne.symm hn2)]
      by_cases hn1 : n = i1
      · subst hn1
        rw [List.getElem?_set_eq_of_lt _ (by simpa using h1), List.getElem?_eq_getElem h1]
      · rw [List.getElem?_set_ne (Ne.symm hn1), List.getElem?_set_ne (Ne.symm hn2),
          List.getElem?_set_ne (Ne.symm hn1)]

/-- Witness for C7 at a concrete two-module canvas and indices 0 and 1. -/
theorem C7_swap_twice_identity_witness :
    0 < sampleCanvas.styleModules.length ∧ 1 < sampleCanvas.styleModules.length ∧
    ((sampleCanvas.SwapStyleModules 0 1).1.SwapStyleModules 0 1).1 = sampleCanvas :=
  ⟨by decide, by decide,
    C7_swap_twice_identity sampleCanvas 0 1 (by decide) (by decide)⟩

/-- C8: inserting a module directly after a valid index `i` and then
removing the module at index `i + 1` restores the original canvas. -/
theorem C8_insert_remove_inverse (c : Canvas) (i : Nat) (m : StyleModule)
    (h : i < c.styleModules.length) :
    ((c.InsertStyleModule i m).1.RemoveStyleModule (i + 1)).1 = c := by
  have hle : i + 1 ≤ c.styleModules.length := h
  have hlen : (c.styleModules.insertIdx (i + 1) m).length = c.styleModules.length + 1 :=
    List.length_insertIdx _ _ hle
  have step1 : c.InsertStyleModule i m =
      ({ c with styleModules := c.styleModules.insertIdx (i + 1) m }, false) := by
    unfold Canvas.InsertStyleModule
    rw [if_pos h]
  rw [step1]
  have h2 : i + 1 <
      ({ c with styleModules := c.styleModules.insertIdx (i + 1) m } : Canvas).styleModules.length := by
    show i + 1 < (c.styleModules.insertIdx (i + 1) m).length
    rw [hlen]
    exact Nat.succ_lt_succ h
  have step2 : ({ c with styleModules := c.styleModules.insertIdx (i + 1) m } : Canvas).RemoveStyleModule
      (i + 1) =
      ({ c with styleModules := (c.styleModules.insertIdx (i + 1) m).eraseIdx (i + 1) }, false) := by
    unfold Canvas.RemoveStyleModule
    rw [if_pos h2]
  rw [step2]
  show ({ c with styleModules := (c.styleModules.insertIdx (i + 1) m).eraseIdx (i + 1) } : Canvas) = c
  rw [List.eraseIdx_insertIdx]

/-- Witness for C8 at a concrete two-module canvas, index 0 and a fresh
module. -/
theorem C8_insert_remove_inverse_witness :
    0 < sampleCanvas.styleModules.length ∧
    ((sampleCanvas.InsertStyleModule 0 sampleModule).1.RemoveStyleModule 1).1 = sampleCanvas :=
  ⟨by decide, C8_insert_remove_inverse sampleCanvas 0 sampleModule (by decide)⟩

theorem mapsKeys_mapsInsert_mem (m : List (String × ImagePyramid)) (key x : String)
    (v : ImagePyramid) (hx : x ∈ mapsKeys (mapsInsert m key v)) : x ∈ mapsKeys m ∨ x = key := by
  induction m with
  | nil =>
    simp [mapsInsert, mapsKeys] at hx
    exact Or.inr hx
  | cons kv rest ih =>
    obtain ⟨k, w⟩ := kv
    by_cases hk : k = key
    · subst hk
      simp [mapsInsert, mapsKeys] at hx ⊢
      tauto
    · simp only [mapsInsert, if_neg hk, mapsKeys, List.map_cons, List.mem_cons] at hx ⊢
      rcases hx with hx | hx
      · exact Or.inl (Or.inl hx)
      · rcases ih hx with hin | heq
        · exact Or.inl (Or.inr hin)
        · exact Or.inr heq

theorem mapsKeys_mapsInsert_nodup (m : List (String × ImagePyramid)) (key : String)
    (v : ImagePyramid) (h : (mapsKeys m).Nodup) : (mapsKeys (mapsInsert m key v)).Nodup := by
  induction m with
  | nil => simp [mapsInsert, mapsKeys]
  | cons kv rest ih =>
    obtain ⟨k, w⟩ := kv
    rw [mapsKeys, List.map_cons, List.nodup_cons] at h
    obtain ⟨hk, hrest⟩ := h
    by_cases hkey : k = key
    · subst hkey
      show (mapsKeys (if k = k then (k, v) :: rest else (k, w) :: mapsInsert rest k v)).Nodup
      rw [if_pos rfl, mapsKeys, List.map_cons, List.nodup_cons]
      exact ⟨hk, hrest⟩
    · rw [mapsInsert]
      simp only [if_neg hkey, mapsKeys, List.map_cons, List.nodup_cons]
      refine ⟨?_, ih hrest⟩
      intro hmem
      rcases mapsKeys_mapsInsert_mem rest key k v hmem with hin | heq
      · exact hk hin
      · exact hkey heq

theorem readMapPixel_content_only (c : Canvas) (n1 n2 : CStr)
    (h : n1.content = n2.content) (level x y : Nat) :
    c.readMapPixel n1 level x y = c.readMapPixel n2 level x y := by
  unfold Canvas.readMapPixel
  rw [h]

/-- C9: map-registry lookup depends only on key string content, compared
lexicographically: two C-string keys the comparator `ltstr` orders neither
way have equal content, a map loaded under one key is read back under the
other, and registration keeps registry keys unique by content. -/
theorem C9_content_keyed_registry (k1 k2 : CStr) (c : Canvas)
    (decode : String → Option GrayImage) (path : String) (lv : Nat) (sigma : ℚ)
    (level x y : Nat) (m : List (String × ImagePyramid)) (v : ImagePyramid)
    (hlt : ltstr k1 k2 = false) (hgt : ltstr k2 k1 = false)
    (hnd : (mapsKeys m).Nodup) :
    k1.content = k2.content ∧
    (c.loadMap decode path k1 lv sigma).1.readMapPixel k2 level x y =
      (c.loadMap decode path k1 lv sigma).1.readMapPixel k1 level x y ∧
    (mapsKeys (mapsInsert m k1.content v)).Nodup := by
  have h1 : ¬ (k1.content < k2.content) := by simpa [ltstr] using hlt
  have h2 : ¬ (k2.content < k1.content) := by simpa [ltstr] using hgt
  have hc : k1.content = k2.content := le_antisymm (not_lt.mp h2) (not_lt.mp h1)
  exact ⟨hc, readMapPixel_content_only _ k2 k1 hc.symm level x y,
    mapsKeys_mapsInsert_nodup m k1.content v hnd⟩

/-- A concrete empty pyramid used to instantiate universally quantified
statements. -/
def samplePyramid : ImagePyramid :=
  { levels := [] }

/-- A concrete C-string key, address 0, content "m". -/
def nameEx : CStr :=
  { addr := 0, content := "m" }

/-- A concrete C-string key at a different address, same content "m". -/
def nameEx2 : CStr :=
  { addr := 1, content := "m" }

/-- Witness for C9 at two concrete keys with distinct addresses and equal
content. -/
theorem C9_content_keyed_registry_witness :
    ltstr nameEx nameEx2 = false ∧ ltstr nameEx2 nameEx = false ∧
    (mapsKeys []).Nodup ∧
    (nameEx.content = nameEx2.content ∧
     (sampleCanvas.loadMap (fun _ => none) "p" nameEx 4 1).1.readMapPixel nameEx2 0 0 0 =
       (sampleCanvas.loadMap (fun _ => none) "p" nameEx 4 1).1.readMapPixel nameEx 0 0 0 ∧
     (mapsKeys (mapsInsert [] nameEx.content samplePyramid)).Nodup) := by
  have hlt : ltstr nameEx nameEx2 = false := by
    simp only [ltstr, nameEx, nameEx2, decide_eq_false_iff_not]
    exact lt_irrefl _
  have hgt : ltstr nameEx2 nameEx = false := by
    simp only [ltstr, nameEx, nameEx2, decide_eq_false_iff_not]
    exact lt_irrefl _
  have hnd : (mapsKeys []).Nodup := by simp [mapsKeys]
  exact ⟨hlt, hgt, hnd,
    C9_content_keyed_registry nameEx nameEx2 sampleCanvas (fun _ => none) "p" 4 1 0 0 0 []
      samplePyramid hlt hgt hnd⟩

theorem renderLayersBasic_eq (ls : List StrokeLayer) :
    renderLayersBasic ls = renderLayers ls := by
  induction ls with
  | nil => rfl
  | cons a t ih => simp [renderLayers, renderLayersBasic, ih]

theorem drawModules_append (a b : List StyleModule) :
    drawModules (a ++ b) =
      ((drawModules a).1 ++ (drawModules b).1, (drawModules a).2 ++ (drawModules b).2) := by
  induction a with
  | nil => simp [drawModules]
  | cons m t ih =>
    simp only [List.cons_append, drawModules, ih]
    cases (drawStep m).2 <;> simp [ih]

theorem drawModules_all_success (mods : List StyleModule)
    (hvis : ∀ m ∈ mods, m.visible = true)
    (hexec : ∀ m ∈ mods, m.execOut ≠ none) :
    (drawModules mods).2 = mods.map (fun m => m.execOut.getD []) := by
  induction mods with
  | nil => simp [drawModules]
  | cons m t ih =>
    have hv := hvis m (by simp)
    have he := hexec m (by simp)
    obtain ⟨l, hl⟩ : ∃ l, m.execOut = some l := Option.ne_none_iff_exists'.mp he
    have iht := ih (fun x hx => hvis x (by simp [hx])) (fun x hx => hexec x (by simp [hx]))
    simp [drawModules, drawStep, hv, hl, iht]

/-- C1: when every module of the chain is visible and produces a layer,
the trace of `RenderStroke` calls made by `Draw()` is the concatenation
of the modules' stroke layers in chain order — all of a module's strokes
before any stroke of a later module — and the trace is the same whether
the basic-mode flag selects the `Render` or the `RenderBasic` path. -/
theorem C1_draw_layer_then_stroke_order (c : Canvas)
    (hvis : ∀ m ∈ c.styleModules, m.visible = true)
    (hexec : ∀ m ∈ c.styleModules, m.execOut ≠ none)
    (hlay : c.layers = []) :
    (c.Draw).2 = renderLayers (c.styleModules.map (fun m => m.execOut.getD [])) ∧
    (({ c with basic := true } : Canvas).Draw).2 = (({ c with basic := false } : Canvas).Draw).2 := by
  have hdm := drawModules_all_success c.styleModules hvis hexec
  have key : ∀ b : Bool, (({ c with basic := b } : Canvas).Draw).2 =
      renderLayers (c.styleModules.map (fun m => m.execOut.getD [])) := by
    intro b
    simp only [Canvas.Draw, Canvas.preDraw, Canvas.postDraw, Canvas.Render, Canvas.RenderBasic]
    rw [hlay]
    cases b <;> simp [renderLayersBasic_eq, hdm]
  exact ⟨key c.basic, by rw [key true, key false]⟩

/-- A concrete canvas with an empty layer stack. -/
def sampleCanvasNoLayers : Canvas :=
  { sampleCanvas with layers := [] }

/-- Witness for C1 at a concrete two-module chain, both visible and
producing layers. -/
theorem C1_draw_layer_then_stroke_order_witness :
    (∀ m ∈ sampleCanvasNoLayers.styleModules, m.visible = true) ∧
    (∀ m ∈ sampleCanvasNoLayers.styleModules, m.execOut ≠ none) ∧
    sampleCanvasNoLayers.layers = [] ∧
    ((sampleCanvasNoLayers.Draw).2 =
      renderLayers (sampleCanvasNoLayers.styleModules.map (fun m => m.execOut.getD [])) ∧
     (({ sampleCanvasNoLayers with basic := true } : Canvas).Draw).2 =
       (({ sampleCanvasNoLayers with basic := false } : Canvas).Draw).2) :=
  ⟨by decide, by decide, rfl,
    C1_draw_layer_then_stroke_order sampleCanvasNoLayers (by decide) (by decide) rfl⟩

/-- C5: when one module's execution fails during `Draw()`, that module
contributes no layer, the layers appended before it are exactly those of
the earlier modules, and every later module still executes: the final
layer stack and module chain are as if the failing module were simply
skipped after its attempt. -/
theorem C5_failure_isolated (c : Canvas) (pre post : List StyleModule) (mf : StyleModule)
    (hchain : c.styleModules = pre ++ mf :: post)
    (hvis : mf.visible = true) (hfail : mf.execOut = none) :
    (c.Draw).1.layers = c.layers ++ ((drawModules pre).2 ++ (drawModules post).2) ∧
    (c.Draw).1.styleModules = (drawModules pre).1 ++ mf :: (drawModules post).1 := by
  have hstep : drawStep mf = (mf, none) := by
    simp [drawStep, hvis, hfail]
  have hmid : drawModules (mf :: post) = (mf :: (drawModules post).1, (drawModules post).2) := by
    simp [drawModules, hstep]
  have hall : drawModules (pre ++ mf :: post) =
      ((drawModules pre).1 ++ mf :: (drawModules post).1,
       (drawModules pre).2 ++ (drawModules post).2) := by
    rw [drawModules_append, hmid]
  constructor
  · simp only [Canvas.Draw, Canvas.preDraw, Canvas.postDraw]
    rw [hchain, hall]
  · simp only [Canvas.Draw, Canvas.preDraw, Canvas.postDraw]
    rw [hchain, hall]

/-- A concrete module whose execution fails. -/
def sampleFailModule : StyleModule :=
  { sid := 2, modified := true, visible := true, execOut := none }

/-- A concrete canvas whose middle module fails. -/
def sampleCanvasFail : Canvas :=
  { sampleCanvas with styleModules := [sampleModule, sampleFailModule, sampleModule2] }

/-- Witness for C5 at a concrete three-module chain whose middle module
fails. -/
theorem C5_failure_isolated_witness :
    sampleCanvasFail.styleModules = [sampleModule] ++ sampleFailModule :: [sampleModule2] ∧
    sampleFailModule.visible = true ∧ sampleFailModule.execOut = none ∧
    ((sampleCanvasFail.Draw).1.layers =
      sampleCanvasFail.layers ++ ((drawModules [sampleModule]).2 ++ (drawModules [sampleModule2]).2) ∧
     (sampleCanvasFail.Draw).1.styleModules =
      (drawModules [sampleModule]).1 ++ sampleFailModule :: (drawModules [sampleModule2]).1) :=
  ⟨rfl, rfl, rfl,
    C5_failure_isolated sampleCanvasFail [sampleModule] [sampleModule2] sampleFailModule
      rfl rfl rfl⟩

theorem mapsFind_insert_self (m : List (String × ImagePyramid)) (key : String)
    (v : ImagePyramid) : mapsFind (mapsInsert m key v) key = some v := by
  induction m with
  | nil => simp [mapsInsert, mapsFind]
  | cons kv rest ih =>
    obtain ⟨k, w⟩ := kv
    by_cases hk : k = key
    · subst hk
      simp [mapsInsert, mapsFind]
    · simp [mapsInsert, mapsFind, hk, ih]

theorem GrayImage.downsample_inRange {img : GrayImage} (hr : img.InRange01) :
    img.downsample.InRange01 := by
  intro x y
  have hg : ∀ a b : Nat, 0 ≤ img.get a b ∧ img.get a b ≤ 1 := fun a b => hr _ _
  have h1 := hg (2 * x) (2 * y)
  have h2 := hg (2 * x + 1) (2 * y)
  have h3 := hg (2 * x) (2 * y + 1)
  have h4 := hg (2 * x + 1) (2 * y + 1)
  constructor
  · show 0 ≤ (img.get (2 * x) (2 * y) + img.get (2 * x + 1) (2 * y) +
      img.get (2 * x) (2 * y + 1) + img.get (2 * x + 1) (2 * y + 1)) / 4
    linarith [h1.1, h2.1, h3.1, h4.1]
  · show (img.get (2 * x) (2 * y) + img.get (2 * x + 1) (2 * y) +
      img.get (2 * x) (2 * y + 1) + img.get (2 * x + 1) (2 * y + 1)) / 4 ≤ 1
    linarith [h1.2, h2.2, h3.2, h4.2]

theorem buildLevels_inRange {img : GrayImage} (hr : img.InRange01) (n : Nat) :
    ∀ lvl ∈ buildLevels n img, lvl.InRange01 := by
  induction n generalizing img with
  | zero => simp [buildLevels]
  | succ k ih =>
    intro lvl hlvl
    rw [buildLevels, List.mem_cons] at hlvl
    rcases hlvl with h | h
    · subst h
      exact hr
    · exact ih (GrayImage.downsample_inRange hr) lvl h

theorem buildLevels_length (n : Nat) (img : GrayImage) : (buildLevels n img).length = n := by
  induction n generalizing img with
  | zero => rfl
  | succ k ih => simp [buildLevels, ih]

theorem readMapPixel_found (c : Canvas) (nm : CStr) (pyr : ImagePyramid)
    (hf : mapsFind c.maps nm.content = some pyr) (level x y : Nat) :
    c.readMapPixel nm level x y = pyr.pixel level x y := by
  unfold Canvas.readMapPixel
  rw [hf]

theorem readMapPixel_notFound (c : Canvas) (nm : CStr)
    (hf : mapsFind c.maps nm.content = none) (level x y : Nat) :
    c.readMapPixel nm level x y = none := by
  unfold Canvas.readMapPixel
  rw [hf]

theorem ImagePyramid.pixel_cons (l0 : GrayImage) (rest : List GrayImage) (level x y : Nat) :
    ImagePyramid.pixel ⟨l0 :: rest⟩ level x y =
      if x < l0.w ∧ y < l0.h then
        match (l0 :: rest)[level]? with
        | some im => some (im.get (x / 2 ^ level) (y / 2 ^ level))
        | none => none
      else none := rfl

/-- C6: after a successful `loadMap(path, "m", 3)`, reading the map at
level 0 and in-bounds coordinates yields a value in [0, 1]; reading the
same map at a level at least the pyramid depth fails, and reading any
unregistered name fails, both returning the sentinel instead of a pixel
value. -/
theorem C6_loadMap_readMapPixel (c : Canvas) (decode : String → Option GrayImage)
    (path : String) (name : CStr) (img : GrayImage) (sigma : ℚ)
    (hdec : decode path = some img) (hr : img.InRange01) :
    (c.loadMap decode path name 3 sigma).2 = false ∧
    (∀ x y : Nat, x < img.w → y < img.h →
      ∃ v : ℚ, (c.loadMap decode path name 3 sigma).1.readMapPixel name 0 x y = some v ∧
        0 ≤ v ∧ v ≤ 1) ∧
    (∀ level x y : Nat, 3 ≤ level →
      (c.loadMap decode path name 3 sigma).1.readMapPixel name level x y = none) ∧
    (∀ (nm : CStr) (level x y : Nat), mapsFind c.maps nm.content = none →
      c.readMapPixel nm level x y = none) := by
  have hload : c.loadMap decode path name 3 sigma =
      ({ c with maps := mapsInsert c.maps name.content (ImagePyramid.build img 3) }, false) := by
    unfold Canvas.loadMap
    rw [hdec]
  have hbuild : ImagePyramid.build img 3 = ⟨img :: buildLevels 2 img.downsample⟩ := by
    unfold ImagePyramid.build
    rw [if_neg (by omega), buildLevels]
  have hf : mapsFind ((c.loadMap decode path name 3 sigma).1).maps name.content =
      some (ImagePyramid.build img 3) := by
    rw [hload]
    exact mapsFind_insert_self c.maps name.content _
  refine ⟨by rw [hload], ?_, ?_, ?_⟩
  · intro x y hx hy
    refine ⟨img.get x y, ?_, (hr _ _).1, (hr _ _).2⟩
    rw [readMapPixel_found _ _ _ hf, hbuild, ImagePyramid.pixel_cons, if_pos ⟨hx, hy⟩]
    simp
  · intro level x y hlev
    rw [readMapPixel_found _ _ _ hf, hbuild, ImagePyramid.pixel_cons]
    have hnone : (img :: buildLevels 2 img.downsample)[level]? = none := by
      apply List.getElem?_eq_none
      simp only [List.length_cons, buildLevels_length]
      omega
    rw [hnone]
    by_cases hb : x < img.w ∧ y < img.h
    · rw [if_pos hb]
    · rw [if_neg hb]
  · intro nm level x y hnone
    exact readMapPixel_notFound c nm hnone level x y

/-- A concrete 2x2 grayscale image with constant value one half. -/
def imgEx : GrayImage :=
  { w := 2, h := 2, pix := fun _ _ => 1 / 2 }

/-- A concrete decoder with one decodable path. -/
def decodeEx : String → Option GrayImage :=
  fun p => if p = "f" then some imgEx else none

theorem imgEx_inRange : imgEx.InRange01 := by
  intro x y
  constructor <;> norm_num [imgEx]

/-- Witness for C6 at a concrete decoder, image and key: the load
succeeds, the in-bounds level-0 read at (1, 1) is in [0, 1], the level-5
read fails, and an unregistered name fails on the starting canvas. -/
theorem C6_loadMap_readMapPixel_witness :
    decodeEx "f" = some imgEx ∧ imgEx.InRange01 ∧
    (sampleCanvas.loadMap decodeEx "f" nameEx 3 1).2 = false ∧
    (∃ v : ℚ, (sampleCanvas.loadMap decodeEx "f" nameEx 3 1).1.readMapPixel nameEx 0 1 1 =
      some v ∧ 0 ≤ v ∧ v ≤ 1) ∧
    (sampleCanvas.loadMap decodeEx "f" nameEx 3 1).1.readMapPixel nameEx 5 1 1 = none ∧
    sampleCanvas.readMapPixel nameEx2 0 0 0 = none := by
  have hdec : decodeEx "f" = some imgEx := by simp [decodeEx]
  have hmain := C6_loadMap_readMapPixel sampleCanvas decodeEx "f" nameEx imgEx 1 hdec imgEx_inRange
  exact ⟨hdec, imgEx_inRange, hmain.1,
    hmain.2.1 1 1 (by norm_num [imgEx]) (by norm_num [imgEx]),
    hmain.2.2.1 5 1 1 (by omega),
    hmain.2.2.2 nameEx2 0 0 0 (by simp [sampleCanvas, mapsFind])⟩

end Freestyle
